import Mathlib

/-!
# Verification of `DialogueConverter`

A shallow embedding of `src/DialogueConverter.py`: a converter that parses a
tab-separated dialogue transcript into dialogues, computes score averages,
and renders structured records and statistics.

Python strings are modelled as `String` / `List Char`; Python `None` and
empty-list truthiness are modelled with `Option` and explicit emptiness
tests; the mutable converter object (`self.dialogues`, `self.current_dialogue`)
is modelled as an explicit state record threaded through the line loop, and a
`ValueError` escaping from `int(...)` is modelled as the `Except.error` case
carrying the converter state at the moment the exception is raised.
Averages are computed in `ℚ` (the Python code uses floats; all inputs in the
concrete statements below are exactly representable).
-/

set_option maxRecDepth 8000

deriving instance DecidableEq for Except

/-- The ASCII whitespace characters removed by Python's `str.strip()`
(the full Unicode whitespace set of Python is not needed here). -/
def pyIsSpace (c : Char) : Bool :=
  c = ' ' || c = '\t' || c = '\n' || c = '\r' || c = '\x0b' || c = '\x0c'

/-- Python `str.strip()` on a character list: drop leading and trailing
whitespace. -/
def pyStripList (l : List Char) : List Char :=
  ((l.dropWhile pyIsSpace).reverse.dropWhile pyIsSpace).reverse

/-- Python `str.split(sep)` for a one-character separator: split at every
occurrence of `sep`, keeping empty fields (so the result is never empty). -/
def pySplit (sep : Char) : List Char → List (List Char)
  | [] => [[]]
  | c :: cs =>
    if c = sep then [] :: pySplit sep cs
    else
      match pySplit sep cs with
      | [] => [[c]]
      | h :: t => (c :: h) :: t

/-- Value of a (possibly empty) run of decimal digits, with accumulator;
`none` as soon as a non-digit appears. -/
def digitsVal : List Char → Nat → Option Nat
  | [], acc => some acc
  | c :: cs, acc => if c.isDigit then digitsVal cs (acc * 10 + (c.toNat - 48)) else none

/-- Python `int(token)` on an already-stripped token: an optional single sign
followed by at least one decimal digit; `none` models the `ValueError`.
(Python's underscore digit grouping is not modelled; no claim depends on it.) -/
def pyInt (l : List Char) : Option Int :=
  match l with
  | [] => none
  | '+' :: rest => if rest = [] then none else (digitsVal rest 0).map Int.ofNat
  | '-' :: rest => if rest = [] then none else (digitsVal rest 0).map (fun n => -(n : Int))
  | _ => (digitsVal l 0).map Int.ofNat

/-- One parsed utterance, as built by `DialogueConverter.parse_line`:
`scores` is `none` when the 4th field was missing, empty, or held no
non-empty token (`score_list if score_list else None`). -/
structure Turn where
  speaker : String
  text : String
  intent : String
  scores : Option (List Int)
deriving DecidableEq

/-- A finalized dialogue: the dict appended to `self.dialogues`. -/
structure Dialogue where
  turns : List Turn
  overall_scores : Option (List Int)
deriving DecidableEq

/-- The mutable state of a `DialogueConverter` object:
`self.dialogues` and `self.current_dialogue`. -/
structure ConvState where
  dialogues : List Dialogue
  current : List Turn
deriving DecidableEq

/-- The state of a freshly constructed `DialogueConverter`. -/
def ConvState.init : ConvState := ⟨[], []⟩

/-- The list comprehension
`[int(s.strip()) for s in scores.split(',') if s.strip()]`:
the first token that is not a valid integer raises (`Except.error`). -/
def parseScoresTokens (scores : List Char) : Except Unit (List Int) :=
  (((pySplit ',' scores).map pyStripList).filter (fun t => !t.isEmpty)).mapM
    (fun t => match pyInt t with
      | some v => Except.ok v
      | none => Except.error ())

/-- `DialogueConverter.parse_line`: strip the line, split on tabs;
fewer than 3 fields returns `none` ("not a turn"); otherwise build a `Turn`,
propagating a score-token `ValueError` as `Except.error`. -/
def parse_line (line : String) : Except Unit (Option Turn) :=
  let parts := pySplit '\t' (pyStripList line.data)
  if parts.length < 3 then Except.ok none
  else
    let speaker := pyStripList (parts.getD 0 [])
    let text := pyStripList (parts.getD 1 [])
    let intent := pyStripList (parts.getD 2 [])
    let scores := if parts.length > 3 then pyStripList (parts.getD 3 []) else []
    match (if scores.isEmpty then Except.ok [] else parseScoresTokens scores) with
    | Except.error e => Except.error e
    | Except.ok score_list =>
      Except.ok (some
        { speaker := ⟨speaker⟩
          text := ⟨text⟩
          intent := ⟨intent⟩
          scores := if score_list.isEmpty then none else some score_list })

/-- One iteration of the `for line in lines` loop body of
`DialogueConverter._process_lines`. An `Except.error` carries the converter
state at the moment `parse_line` raises (the loop body has not yet mutated
the state for the failing line). -/
def processLine (s : ConvState) (line : String) : Except ConvState ConvState :=
  if (pyStripList line.data).isEmpty then Except.ok s
  else
    match parse_line line with
    | Except.error _ => Except.error s
    | Except.ok none => Except.ok s
    | Except.ok (some parsed) =>
      if parsed.speaker = "USER" ∧ parsed.text = "OVERALL" then
        if s.current.isEmpty then Except.ok s
        else Except.ok ⟨s.dialogues ++ [⟨s.current, parsed.scores⟩], []⟩
      else Except.ok ⟨s.dialogues, s.current ++ [parsed]⟩

/-- The `for` loop of `DialogueConverter._process_lines`. -/
def processLoop : ConvState → List String → Except ConvState ConvState
  | s, [] => Except.ok s
  | s, line :: rest =>
    match processLine s line with
    | Except.error e => Except.error e
    | Except.ok s' => processLoop s' rest

/-- `DialogueConverter._process_lines`: run the loop, then flush a trailing
non-empty accumulator as a dialogue with `overall_scores = None`. Note that
this final flush does NOT reset `self.current_dialogue`. -/
def _process_lines (s : ConvState) (lines : List String) : Except ConvState ConvState :=
  match processLoop s lines with
  | Except.error e => Except.error e
  | Except.ok s' =>
    if s'.current.isEmpty then Except.ok s'
    else Except.ok ⟨s'.dialogues ++ [⟨s'.current, none⟩], s'.current⟩

/-- `DialogueConverter.read_from_text`: strip the text, split on newlines,
and process the lines. -/
def read_from_text (s : ConvState) (text : String) : Except ConvState ConvState :=
  _process_lines s ((pySplit '\n' (pyStripList text.data)).map (fun l => (⟨l⟩ : String)))

/-- The loop body building `all_scores` in
`DialogueConverter.calculate_dialogue_average`:
`if turn["scores"]: all_scores.extend(turn["scores"])`
(Python truthiness: `None` and `[]` are both skipped). -/
def extendScores (acc : List Int) (t : Turn) : List Int :=
  match t.scores with
  | some (y :: ys) => acc ++ (y :: ys)
  | _ => acc

/-- `DialogueConverter.calculate_dialogue_average`: mean of `overall_scores`
when that field is truthy (present and non-empty); otherwise the mean of all
truthy turn scores concatenated, and `0.0` when there are none. -/
def calculate_dialogue_average (d : Dialogue) : ℚ :=
  match d.overall_scores with
  | some (x :: xs) => (((x :: xs).sum : ℚ)) / (((x :: xs).length : ℚ))
  | _ =>
    let all_scores := d.turns.foldl extendScores []
    if all_scores.isEmpty then 0 else ((all_scores.sum : ℚ)) / ((all_scores.length : ℚ))

/-- `DialogueConverter.scale_score` (arguments explicit; the Python defaults
`old_min=1, old_max=5, new_min=1, new_max=100` are supplied at call sites):
linear rescaling with a degenerate-range guard. -/
def scale_score (score old_min old_max new_min new_max : ℚ) : ℚ :=
  if old_max - old_min = 0 then new_min
  else new_min + (score - old_min) * (new_max - new_min) / (old_max - old_min)

/-- Python's `round` to an integer: nearest integer, ties to even
(modelled exactly on `ℚ`; the Python code applies it to floats). -/
def roundHalfEven (q : ℚ) : Int :=
  if q - q.floor < 1 / 2 then q.floor
  else if 1 / 2 < q - q.floor then q.floor + 1
  else if q.floor % 2 = 0 then q.floor else q.floor + 1

/-- Python's `round(x, 2)`. -/
def round2 (q : ℚ) : ℚ := ((roundHalfEven (q * 100) : ℚ)) / 100

/-- One per-turn record of the structured-record renderer
(`DialogueConverter.to_json_format`). -/
structure TurnRecord where
  turn_id : Nat
  speaker : String
  text : String
  intent : String
  scores : Option (List Int)
deriving DecidableEq

/-- One per-dialogue record of the structured-record renderer;
`average_score_100 = none` models the JSON `null`. -/
structure DialogueRecord where
  dialogue_id : Nat
  turns : List TurnRecord
  overall_scores : Option (List Int)
  average_score : ℚ
  average_score_100 : Option ℚ
deriving DecidableEq

/-- The whole document built by `DialogueConverter.to_json_format`
(the file write and pretty-printing are I/O and are not modelled). -/
structure JsonDoc where
  total_dialogues : Nat
  dialogues : List DialogueRecord
deriving DecidableEq

/-- The per-dialogue record built inside `DialogueConverter.to_json_format`:
`"average_score_100": round(self.scale_score(avg_score), 2) if avg_score > 0 else None`. -/
def to_json_dialogue (idx : Nat) (d : Dialogue) : DialogueRecord :=
  let avg_score := calculate_dialogue_average d
  { dialogue_id := idx
    turns := (d.turns.enumFrom 1).map (fun p =>
      { turn_id := p.1, speaker := p.2.speaker, text := p.2.text
        intent := p.2.intent, scores := p.2.scores })
    overall_scores := d.overall_scores
    average_score := round2 avg_score
    average_score_100 :=
      if 0 < avg_score then some (round2 (scale_score avg_score 1 5 1 100)) else none }

/-- `DialogueConverter.to_json_format` (the pure document construction). -/
def to_json_format (dialogues : List Dialogue) : JsonDoc :=
  { total_dialogues := dialogues.length
    dialogues := (dialogues.enumFrom 1).map (fun p => to_json_dialogue p.1 p.2) }

/-- `intent_counts[intent] = intent_counts.get(intent, 0) + 1` on an
insertion-ordered association list (Python dict semantics). -/
def incrIntent : List (String × Nat) → String → List (String × Nat)
  | [], i => [(i, 1)]
  | (k, v) :: rest, i =>
    if k = i then (k, v + 1) :: rest else (k, v) :: incrIntent rest i

/-- The intent histogram of `DialogueConverter.get_statistics`: outer loop
over dialogues, inner loop over turns. -/
def intentCounts (dialogues : List Dialogue) : List (String × Nat) :=
  dialogues.foldl (fun m d => d.turns.foldl (fun m' t => incrIntent m' t.intent) m) []

/-- The record returned by `DialogueConverter.get_statistics`. -/
structure Statistics where
  total_dialogues : Nat
  total_turns : Nat
  average_turns_per_dialogue : ℚ
  intent_distribution : List (String × Nat)
  dialogue_average_scores : List ℚ
  overall_average_score : ℚ
  overall_average_score_100 : Option ℚ
deriving DecidableEq

/-- `DialogueConverter.get_statistics` over the finalized dialogue list. -/
def get_statistics (dialogues : List Dialogue) : Statistics :=
  let total_turns : Nat := (dialogues.map (fun d => d.turns.length)).sum
  let avg_turns : ℚ :=
    if dialogues.isEmpty then 0 else ((total_turns : ℚ)) / ((dialogues.length : ℚ))
  let dialogue_scores := dialogues.map calculate_dialogue_average
  let overall_avg : ℚ :=
    if dialogue_scores.isEmpty then 0
    else dialogue_scores.sum / ((dialogue_scores.length : ℚ))
  { total_dialogues := dialogues.length
    total_turns := total_turns
    average_turns_per_dialogue := round2 avg_turns
    intent_distribution := intentCounts dialogues
    dialogue_average_scores := dialogue_scores
    overall_average_score := round2 overall_avg
    overall_average_score_100 :=
      if 0 < overall_avg then some (round2 (scale_score overall_avg 1 5 1 100)) else none }

/-- A finalized dialogue with a ghost tag recording which branch of
`_process_lines` appended it: `bySentinel = true` for the sentinel
(`USER`/`OVERALL`) flush, `false` for the end-of-input flush. Erasing the
tag recovers `Dialogue` (see `processLinesG_erase`). -/
structure DialogueG where
  turns : List Turn
  overall_scores : Option (List Int)
  bySentinel : Bool
deriving DecidableEq

/-- Ghost-tagged converter state. -/
structure ConvStateG where
  dialogues : List DialogueG
  current : List Turn
deriving DecidableEq

/-- Fresh ghost-tagged converter state. -/
def ConvStateG.init : ConvStateG := ⟨[], []⟩

/-- Drop the ghost tag. -/
def DialogueG.erase (d : DialogueG) : Dialogue := ⟨d.turns, d.overall_scores⟩

/-- Drop the ghost tags of a state. -/
def ConvStateG.erase (s : ConvStateG) : ConvState :=
  ⟨s.dialogues.map DialogueG.erase, s.current⟩

/-- Ghost-tagged `processLine`: identical control flow, but each appended
dialogue records which flush produced it. -/
def processLineG (s : ConvStateG) (line : String) : Except ConvStateG ConvStateG :=
  if (pyStripList line.data).isEmpty then Except.ok s
  else
    match parse_line line with
    | Except.error _ => Except.error s
    | Except.ok none => Except.ok s
    | Except.ok (some parsed) =>
      if parsed.speaker = "USER" ∧ parsed.text = "OVERALL" then
        if s.current.isEmpty then Except.ok s
        else Except.ok ⟨s.dialogues ++ [⟨s.current, parsed.scores, true⟩], []⟩
      else Except.ok ⟨s.dialogues, s.current ++ [parsed]⟩

/-- Ghost-tagged `processLoop`. -/
def processLoopG : ConvStateG → List String → Except ConvStateG ConvStateG
  | s, [] => Except.ok s
  | s, line :: rest =>
    match processLineG s line with
    | Except.error e => Except.error e
    | Except.ok s' => processLoopG s' rest

/-- Ghost-tagged `_process_lines`. -/
def processLinesG (s : ConvStateG) (lines : List String) : Except ConvStateG ConvStateG :=
  match processLoopG s lines with
  | Except.error e => Except.error e
  | Except.ok s' =>
    if s'.current.isEmpty then Except.ok s'
    else Except.ok ⟨s'.dialogues ++ [⟨s'.current, none, false⟩], s'.current⟩

/-- All turn scores of a dialogue flattened in turn order, keeping the scores
of every turn whose `scores` field is present (spec wording for the average's
fallback). -/
def flatTurnScores (d : Dialogue) : List Int :=
  (d.turns.filterMap Turn.scores).flatten

/-- The fallback mean described by the spec: mean of `flatTurnScores`, `0.0`
when that concatenation is empty. -/
def specFlatAverage (d : Dialogue) : ℚ :=
  if (flatTurnScores d).isEmpty then 0
  else (((flatTurnScores d).sum : ℚ)) / ((((flatTurnScores d).length : ℚ)))

/-- The dialogue average as worded by the spec: mean of `overall_scores` when
present and non-empty, otherwise the fallback mean over all present turn
scores. Stated from the spec's words, to be compared with
`calculate_dialogue_average`. -/
def specDialogueAverage (d : Dialogue) : ℚ :=
  match d.overall_scores with
  | some l => if l.isEmpty then specFlatAverage d else ((l.sum : ℚ)) / ((l.length : ℚ))
  | none => specFlatAverage d

/-- The turn a line contributes to the current dialogue, if any. -/
def lineTurn (line : String) : Option Turn :=
  match parse_line line with
  | Except.ok (some t) => some t
  | _ => none

/-- Whether a line parses to the boundary sentinel turn
(`speaker == "USER"` and `text == "OVERALL"`). -/
def lineIsSentinel (line : String) : Bool :=
  match lineTurn line with
  | some t => decide (t.speaker = "USER" ∧ t.text = "OVERALL")
  | none => false

/-- Erase the ghost tags of a whole `processLinesG` outcome. -/
def eraseResult (r : Except ConvStateG ConvStateG) : Except ConvState ConvState :=
  match r with
  | Except.error e => Except.error e.erase
  | Except.ok s => Except.ok s.erase

theorem foldl_extendScores (ts : List Turn) (acc : List Int) :
    ts.foldl extendScores acc = acc ++ (ts.filterMap Turn.scores).flatten := by
  induction ts generalizing acc with
  | nil => simp
  | cons t ts ih =>
    cases h : t.scores with
    | none => simp [List.foldl_cons, extendScores, h, ih]
    | some l =>
      cases l with
      | nil => simp [List.foldl_cons, extendScores, h, ih]
      | cons y ys => simp [List.foldl_cons, extendScores, h, ih]

/-- C5: `calculate_dialogue_average` coincides with the spec's description:
mean of `overall_scores` when present and non-empty, otherwise the mean of
the concatenated present turn scores, and `0` when that concatenation is
empty. -/
theorem average_matches_spec (d : Dialogue) :
    calculate_dialogue_average d = specDialogueAverage d := by
  have hall : d.turns.foldl extendScores [] = flatTurnScores d := by
    simpa [flatTurnScores] using foldl_extendScores d.turns []
  cases h : d.overall_scores with
  | none =>
    simp only [calculate_dialogue_average, specDialogueAverage, h, specFlatAverage, hall]
  | some l =>
    cases l with
    | nil =>
      simp only [calculate_dialogue_average, specDialogueAverage, h, specFlatAverage, hall,
        List.isEmpty_nil, if_true]
    | cons x xs =>
      simp [calculate_dialogue_average, specDialogueAverage, h]

/-- C7: `scale_score` preserves the endpoints of the 1–5 → 1–100 map and
returns `new_min` on a degenerate old range. -/
theorem scale_score_endpoints :
    scale_score 1 1 5 1 100 = 1 ∧ scale_score 5 1 5 1 100 = 100 ∧
      ∀ x m nm nx : ℚ, scale_score x m m nm nx = nm := by
  refine ⟨by norm_num [scale_score], by norm_num [scale_score], ?_⟩
  intro x m nm nx
  simp [scale_score]

theorem sum_incrIntent (m : List (String × Nat)) (i : String) :
    ((incrIntent m i).map Prod.snd).sum = (m.map Prod.snd).sum + 1 := by
  induction m with
  | nil => simp [incrIntent]
  | cons kv rest ih =>
    obtain ⟨k, v⟩ := kv
    by_cases hk : k = i
    · simp [incrIntent, hk]
      omega
    · simp [incrIntent, hk, ih]
      omega

theorem sum_foldl_incrIntent (ts : List Turn) (m : List (String × Nat)) :
    ((ts.foldl (fun m' t => incrIntent m' t.intent) m).map Prod.snd).sum
      = (m.map Prod.snd).sum + ts.length := by
  induction ts generalizing m with
  | nil => simp
  | cons t ts ih => simp [List.foldl_cons, ih, sum_incrIntent]; omega

theorem sum_intentCounts_aux (ds : List Dialogue) (m : List (String × Nat)) :
    (((ds.foldl (fun m' d => d.turns.foldl (fun m'' t => incrIntent m'' t.intent) m') m).map
        Prod.snd)).sum
      = (m.map Prod.snd).sum + (ds.map (fun d => d.turns.length)).sum := by
  induction ds generalizing m with
  | nil => simp
  | cons d ds ih => simp [List.foldl_cons, ih, sum_foldl_incrIntent]; omega

/-- C8: in `get_statistics`, the counts of the intent histogram sum to the
total turn count, the sum over all dialogues of their number of turns. -/
theorem intent_histogram_sums_to_turns (ds : List Dialogue) :
    ((get_statistics ds).intent_distribution.map Prod.snd).sum
      = (get_statistics ds).total_turns := by
  simp [get_statistics, intentCounts, sum_intentCounts_aux]

/-- C9: a line whose stripped form splits into fewer than 3 tab-separated
fields is silently skipped: `parse_line` returns the not-a-turn signal, no
error is raised, and the segmenter state is unchanged. -/
theorem short_line_skipped (line : String) (s : ConvState)
    (h : (pySplit '\t' (pyStripList line.data)).length < 3) :
    parse_line line = Except.ok none ∧ processLine s line = Except.ok s := by
  have hp : parse_line line = Except.ok none := by
    unfold parse_line
    simp [h]
  refine ⟨hp, ?_⟩
  unfold processLine
  by_cases hb : (pyStripList line.data).isEmpty
  · simp [hb]
  · simp [hb, hp]

/-- Witness for C9 at the concrete 2-field line `"a\tb"`. -/
theorem short_line_skipped_witness :
    (pySplit '\t' (pyStripList ("a\tb").data)).length < 3 ∧
      (parse_line "a\tb" = Except.ok none ∧
        processLine ConvState.init "a\tb" = Except.ok ConvState.init) :=
  ⟨by decide, short_line_skipped "a\tb" ConvState.init (by decide)⟩

theorem dropWhile_append_elem (p : Char → Bool) (l : List Char) (a : Char) :
    (l ++ [a]).dropWhile p =
      if (l.dropWhile p).isEmpty then [a].dropWhile p else l.dropWhile p ++ [a] := by
  induction l with
  | nil => simp
  | cons c cs ih =>
    by_cases hc : p c
    · simp [List.dropWhile_cons, hc, ih]
    · simp [List.dropWhile_cons, hc]

theorem pyStripList_tab_cons (l : List Char) :
    pyStripList ('\t' :: l) = pyStripList l := by
  have ht : pyIsSpace '\t' = true := by decide
  simp [pyStripList, List.dropWhile_cons, ht]

theorem pyStripList_append_tab (l : List Char) :
    pyStripList (l ++ ['\t']) = pyStripList l := by
  have ht : pyIsSpace '\t' = true := by decide
  unfold pyStripList
  rw [dropWhile_append_elem]
  by_cases hd : (l.dropWhile pyIsSpace).isEmpty
  · rw [if_pos hd]
    have hnil : l.dropWhile pyIsSpace = [] := by simpa using hd
    simp [hnil, List.dropWhile_cons, ht]
  · rw [if_neg hd]
    simp [List.reverse_append, List.dropWhile_cons, ht]

theorem parse_line_strip_congr (a b : String)
    (h : pyStripList a.data = pyStripList b.data) :
    parse_line a = parse_line b := by
  unfold parse_line
  rw [h]

/-- C10: `parse_line` strips the whole line (tabs included) before splitting:
prepending or appending a tab never changes the parse result, and on the raw
(unstripped) line a leading tab just contributes an empty leading field. -/
theorem parse_line_strips_outer_tabs (line : String) :
    parse_line (⟨'\t' :: line.data⟩ : String) = parse_line line ∧
    parse_line (⟨line.data ++ ['\t']⟩ : String) = parse_line line ∧
    pySplit '\t' ('\t' :: line.data) = [] :: pySplit '\t' line.data := by
  refine ⟨parse_line_strip_congr _ _ ?_, parse_line_strip_congr _ _ ?_, ?_⟩
  · exact pyStripList_tab_cons line.data
  · exact pyStripList_append_tab line.data
  · simp [pySplit]

theorem processLine_error_eq {s e : ConvState} {line : String}
    (h : processLine s line = Except.error e) : e = s := by
  unfold processLine at h
  by_cases hb : (pyStripList line.data).isEmpty
  · rw [if_pos hb] at h; cases h
  · rw [if_neg hb] at h
    cases hp : parse_line line with
    | error u => rw [hp] at h; injection h with h'; exact h'.symm
    | ok o =>
      rw [hp] at h
      cases o with
      | none => cases h
      | some t =>
        dsimp only at h
        by_cases hs : t.speaker = "USER" ∧ t.text = "OVERALL"
        · rw [if_pos hs] at h
          by_cases hc : s.current.isEmpty
          · rw [if_pos hc] at h; cases h
          · rw [if_neg hc] at h; cases h
        · rw [if_neg hs] at h; cases h

theorem processLine_ok_extends {s s' : ConvState} {line : String}
    (h : processLine s line = Except.ok s') :
    ∃ t, s'.dialogues = s.dialogues ++ t := by
  unfold processLine at h
  by_cases hb : (pyStripList line.data).isEmpty
  · rw [if_pos hb] at h; injection h with h'; exact ⟨[], by rw [← h']; simp⟩
  · rw [if_neg hb] at h
    cases hp : parse_line line with
    | error u => rw [hp] at h; cases h
    | ok o =>
      rw [hp] at h
      cases o with
      | none => injection h with h'; exact ⟨[], by rw [← h']; simp⟩
      | some t =>
        dsimp only at h
        by_cases hs : t.speaker = "USER" ∧ t.text = "OVERALL"
        · rw [if_pos hs] at h
          by_cases hc : s.current.isEmpty
          · rw [if_pos hc] at h; injection h with h'; exact ⟨[], by rw [← h']; simp⟩
          · rw [if_neg hc] at h; injection h with h'
            exact ⟨[⟨s.current, t.scores⟩], by rw [← h']⟩
        · rw [if_neg hs] at h; injection h with h'
          exact ⟨[], by rw [← h']; simp⟩

theorem processLoop_error_extends :
    ∀ (lines : List String) (s e : ConvState),
      processLoop s lines = Except.error e → ∃ t, e.dialogues = s.dialogues ++ t := by
  intro lines
  induction lines with
  | nil => intro s e h; cases h
  | cons line rest ih =>
    intro s e h
    unfold processLoop at h
    cases hp : processLine s line with
    | error e' =>
      rw [hp] at h
      injection h with h'
      subst h'
      exact ⟨[], by rw [processLine_error_eq hp]; simp⟩
    | ok s₁ =>
      rw [hp] at h
      obtain ⟨t₁, ht₁⟩ := ih s₁ e h
      obtain ⟨t₀, ht₀⟩ := processLine_ok_extends hp
      exact ⟨t₀ ++ t₁, by rw [ht₁, ht₀, List.append_assoc]⟩

/-- C1 (amended): when a read fails on a bad score token, the error
propagates out (no corpus value is produced), but the converter state is not
rolled back: the dialogue list at the moment of the failure extends the
pre-read dialogue list by the dialogues flushed before the failing line. -/
theorem failed_read_extends_dialogues (s : ConvState) (lines : List String) (e : ConvState)
    (h : _process_lines s lines = Except.error e) :
    ∃ t, e.dialogues = s.dialogues ++ t := by
  unfold _process_lines at h
  cases hp : processLoop s lines with
  | error e' =>
    rw [hp] at h
    injection h with h'
    subst h'
    exact processLoop_error_extends lines s _ hp
  | ok s' =>
    rw [hp] at h
    dsimp only at h
    by_cases hc : s'.current.isEmpty
    · rw [if_pos hc] at h; cases h
    · rw [if_neg hc] at h; cases h

/-- Counterexample to C1 as stated: on a fresh converter, an input whose third
line has the non-integer score token `x` raises after the first dialogue was
already flushed, so the finalized dialogue list after the failed read is
not the (empty) list from before the read. -/
theorem failed_read_not_atomic :
    read_from_text ConvState.init "a\tb\tc\nUSER\tOVERALL\to\t1\na\tb\tc\tx" =
      Except.error ⟨[⟨[⟨"a", "b", "c", none⟩], some [1]⟩], []⟩ ∧
    (ConvState.mk [⟨[⟨"a", "b", "c", none⟩], some [1]⟩] []).dialogues ≠
      ConvState.init.dialogues := by
  exact ⟨by decide, by decide⟩

/-- Witness for the amended C1 at the concrete failing input. -/
theorem failed_read_extends_dialogues_witness :
    ∃ t, (ConvState.mk [⟨[⟨"a", "b", "c", none⟩], some [1]⟩] []).dialogues =
      ConvState.init.dialogues ++ t :=
  failed_read_extends_dialogues ConvState.init
    ["a\tb\tc", "USER\tOVERALL\to\t1", "a\tb\tc\tx"] _ (by decide)

/-- C2 (amended): a sentinel flush resets the accumulator, but the
end-of-input flush does not; after a successful `_process_lines`, the
accumulator is either empty or still holds exactly the turns of the last
finalized dialogue (the one flushed at end-of-input). -/
theorem accumulator_after_processing (s s' : ConvState) (lines : List String)
    (h : _process_lines s lines = Except.ok s') :
    s'.current = [] ∨ s'.dialogues.getLast? = some ⟨s'.current, none⟩ := by
  unfold _process_lines at h
  cases hp : processLoop s lines with
  | error e => rw [hp] at h; cases h
  | ok s₀ =>
    rw [hp] at h
    dsimp only at h
    by_cases hc : s₀.current.isEmpty
    · rw [if_pos hc] at h
      injection h with h'
      subst h'
      left
      simpa using hc
    · rw [if_neg hc] at h
      injection h with h'
      subst h'
      right
      simp

/-- Counterexample to C2 as stated: processing a single ordinary line
completes with the end-of-input flush, yet the accumulator still holds the
flushed turn — it is not reset to empty. -/
theorem accumulator_not_reset_at_end :
    _process_lines ConvState.init ["a\tb\tc"] =
      Except.ok ⟨[⟨[⟨"a", "b", "c", none⟩], none⟩], [⟨"a", "b", "c", none⟩]⟩ ∧
    ([⟨"a", "b", "c", none⟩] : List Turn) ≠ [] := by
  exact ⟨by decide, by decide⟩

/-- Witness for the amended C2 at the concrete one-line input. -/
theorem accumulator_after_processing_witness :
    (ConvState.mk [⟨[⟨"a", "b", "c", none⟩], none⟩] [⟨"a", "b", "c", none⟩]).current = [] ∨
    (ConvState.mk [⟨[⟨"a", "b", "c", none⟩], none⟩] [⟨"a", "b", "c", none⟩]).dialogues.getLast?
      = some ⟨(ConvState.mk [⟨[⟨"a", "b", "c", none⟩], none⟩] [⟨"a", "b", "c", none⟩]).current,
              none⟩ :=
  accumulator_after_processing ConvState.init _ ["a\tb\tc"] (by decide)

theorem processLineG_erase (s : ConvStateG) (line : String) :
    eraseResult (processLineG s line) = processLine s.erase line := by
  unfold processLineG processLine
  by_cases hb : (pyStripList line.data).isEmpty
  · simp [hb, eraseResult]
  · cases hp : parse_line line with
    | error u => simp [hb, hp, eraseResult]
    | ok o =>
      cases o with
      | none => simp [hb, hp, eraseResult]
      | some t =>
        by_cases hs : t.speaker = "USER" ∧ t.text = "OVERALL"
        · by_cases hc : s.current.isEmpty
          · simp [hb, hp, hs, hc, eraseResult, ConvStateG.erase]
          · simp [hb, hp, hs, hc, eraseResult, ConvStateG.erase, DialogueG.erase]
        · simp [hb, hp, hs, eraseResult, ConvStateG.erase, DialogueG.erase]

theorem processLoopG_erase :
    ∀ (lines : List String) (s : ConvStateG),
      eraseResult (processLoopG s lines) = processLoop s.erase lines := by
  intro lines
  induction lines with
  | nil => intro s; rfl
  | cons line rest ih =>
    intro s
    unfold processLoopG processLoop
    cases hp : processLineG s line with
    | error e =>
      have := processLineG_erase s line
      rw [hp] at this
      rw [← this]
      rfl
    | ok s₁ =>
      have := processLineG_erase s line
      rw [hp] at this
      rw [← this]
      exact ih s₁

/-- The ghost-tagged segmenter erases to the segmenter embedded from the
source: the `bySentinel` tag is pure instrumentation. -/
theorem processLinesG_erase (s : ConvStateG) (lines : List String) :
    eraseResult (processLinesG s lines) = _process_lines s.erase lines := by
  unfold processLinesG _process_lines
  cases hp : processLoopG s lines with
  | error e =>
    have := processLoopG_erase lines s
    rw [hp] at this
    rw [← this]
    rfl
  | ok s₀ =>
    have := processLoopG_erase lines s
    rw [hp] at this
    rw [← this]
    dsimp only [eraseResult]
    by_cases hc : s₀.current.isEmpty
    · have hc' : (ConvStateG.erase s₀).current.isEmpty = true := hc
      rw [if_pos hc, if_pos hc']
    · have hc' : ¬(ConvStateG.erase s₀).current.isEmpty = true := hc
      rw [if_neg hc, if_neg hc']
      simp [eraseResult, ConvStateG.erase, DialogueG.erase]

theorem processLineG_preserves {s s' : ConvStateG} {line : String}
    (hinv : ∀ d ∈ s.dialogues, d.bySentinel = false → d.overall_scores = none)
    (h : processLineG s line = Except.ok s') :
    ∀ d ∈ s'.dialogues, d.bySentinel = false → d.overall_scores = none := by
  unfold processLineG at h
  by_cases hb : (pyStripList line.data).isEmpty
  · rw [if_pos hb] at h; injection h with h'; subst h'; exact hinv
  · rw [if_neg hb] at h
    cases hp : parse_line line with
    | error u => rw [hp] at h; cases h
    | ok o =>
      rw [hp] at h
      cases o with
      | none => injection h with h'; subst h'; exact hinv
      | some t =>
        dsimp only at h
        by_cases hs : t.speaker = "USER" ∧ t.text = "OVERALL"
        · rw [if_pos hs] at h
          by_cases hc : s.current.isEmpty
          · rw [if_pos hc] at h; injection h with h'; subst h'; exact hinv
          · rw [if_neg hc] at h; injection h with h'; subst h'
            intro d hd
            rcases List.mem_append.mp hd with hmem | hmem
            · exact hinv d hmem
            · intro hfalse
              rcases List.mem_singleton.mp hmem with rfl
              cases hfalse
        · rw [if_neg hs] at h; injection h with h'; subst h'; exact hinv

theorem processLoopG_preserves :
    ∀ (lines : List String) (s s' : ConvStateG),
      (∀ d ∈ s.dialogues, d.bySentinel = false → d.overall_scores = none) →
      processLoopG s lines = Except.ok s' →
      ∀ d ∈ s'.dialogues, d.bySentinel = false → d.overall_scores = none := by
  intro lines
  induction lines with
  | nil =>
    intro s s' hinv h
    injection h with h'
    subst h'
    exact hinv
  | cons line rest ih =>
    intro s s' hinv h
    unfold processLoopG at h
    cases hp : processLineG s line with
    | error e => rw [hp] at h; cases h
    | ok s₁ =>
      rw [hp] at h
      exact ih s₁ s' (processLineG_preserves hinv hp) h

/-- C3 (amended): on a fresh converter, a finalized dialogue's
`overall_scores` can be present only if the dialogue was closed by a boundary
sentinel turn; in particular every dialogue flushed at end-of-input has
`overall_scores` absent. (The converse fails: a sentinel without scores
also closes a dialogue with `overall_scores` absent.) -/
theorem overall_scores_only_from_sentinel (lines : List String) (s' : ConvStateG)
    (h : processLinesG ConvStateG.init lines = Except.ok s') :
    ∀ d ∈ s'.dialogues, d.bySentinel = false → d.overall_scores = none := by
  unfold processLinesG at h
  cases hp : processLoopG ConvStateG.init lines with
  | error e => rw [hp] at h; cases h
  | ok s₀ =>
    have hinv₀ : ∀ d ∈ (ConvStateG.init).dialogues,
        d.bySentinel = false → d.overall_scores = none := by
      intro d hd
      cases hd
    have hinv := processLoopG_preserves lines ConvStateG.init s₀ hinv₀ hp
    rw [hp] at h
    dsimp only at h
    by_cases hc : s₀.current.isEmpty
    · rw [if_pos hc] at h; injection h with h'; subst h'; exact hinv
    · rw [if_neg hc] at h; injection h with h'; subst h'
      intro d hd
      rcases List.mem_append.mp hd with hmem | hmem
      · exact hinv d hmem
      · intro _
        rcases List.mem_singleton.mp hmem with rfl
        rfl

/-- Counterexample to C3 as stated: a dialogue closed by the sentinel line
`USER<TAB>OVERALL<TAB>o` (which carries no score field) has
`overall_scores` absent, refuting "present if and only if closed by a
sentinel". -/
theorem sentinel_close_without_scores :
    processLinesG ConvStateG.init ["a\tb\tc", "USER\tOVERALL\to"] =
      Except.ok ⟨[⟨[⟨"a", "b", "c", none⟩], none, true⟩], []⟩ ∧
    (DialogueG.mk [⟨"a", "b", "c", none⟩] none true).bySentinel = true ∧
    (DialogueG.mk [⟨"a", "b", "c", none⟩] none true).overall_scores = none := by
  exact ⟨by decide, rfl, rfl⟩

/-- Witness for the amended C3: the end-of-input-flushed dialogue of a
one-line input indeed has `overall_scores` absent. -/
theorem overall_scores_only_from_sentinel_witness :
    (DialogueG.mk [⟨"a", "b", "c", none⟩] none false).overall_scores = none :=
  overall_scores_only_from_sentinel ["a\tb\tc"]
    ⟨[⟨[⟨"a", "b", "c", none⟩], none, false⟩], [⟨"a", "b", "c", none⟩]⟩ (by decide)
    ⟨[⟨"a", "b", "c", none⟩], none, false⟩ (by simp) rfl

theorem processLoop_no_sentinel :
    ∀ (lines : List String) (s : ConvState),
      (∀ l ∈ lines, lineIsSentinel l = false ∧ parse_line l ≠ Except.error ()) →
      processLoop s lines = Except.ok ⟨s.dialogues, s.current ++ lines.filterMap lineTurn⟩ := by
  intro lines
  induction lines with
  | nil => intro s h; simp [processLoop]
  | cons line rest ih =>
    intro s h
    have hl := h line (List.mem_cons_self line rest)
    have hrest : ∀ l ∈ rest, lineIsSentinel l = false ∧ parse_line l ≠ Except.error () :=
      fun l hl' => h l (List.mem_cons_of_mem line hl')
    unfold processLoop
    by_cases hb : (pyStripList line.data).isEmpty
    · have hnil : pyStripList line.data = [] := by simpa using hb
      have hp : parse_line line = Except.ok none := by
        unfold parse_line
        rw [hnil]
        rfl
      have hpl : processLine s line = Except.ok s := by
        unfold processLine
        rw [if_pos hb]
      have hlt : lineTurn line = none := by
        unfold lineTurn
        rw [hp]
      rw [hpl]
      dsimp only
      rw [ih s hrest]
      simp [List.filterMap_cons, hlt]
    · cases hp : parse_line line with
      | error u => cases u; exact absurd hp hl.2
      | ok o =>
        cases o with
        | none =>
          have hpl : processLine s line = Except.ok s := by
            unfold processLine
            rw [if_neg hb, hp]
          have hlt : lineTurn line = none := by
            unfold lineTurn
            rw [hp]
          rw [hpl]
          dsimp only
          rw [ih s hrest]
          simp [List.filterMap_cons, hlt]
        | some t =>
          have hns : ¬(t.speaker = "USER" ∧ t.text = "OVERALL") := by
            have h1 := hl.1
            unfold lineIsSentinel lineTurn at h1
            rw [hp] at h1
            exact of_decide_eq_false h1
          have hpl : processLine s line = Except.ok ⟨s.dialogues, s.current ++ [t]⟩ := by
            unfold processLine
            rw [if_neg hb, hp]
            dsimp only
            rw [if_neg hns]
          have hlt : lineTurn line = some t := by
            unfold lineTurn
            rw [hp]
          rw [hpl]
          dsimp only
          rw [ih _ hrest]
          simp [List.filterMap_cons, hlt, List.append_assoc]

/-- C4 (amended): for a sentinel-free, error-free input on a fresh converter,
the result is a single dialogue holding all parsed turns in input order with
`overall_scores` absent — unless no line parses as a turn, in which case the
result holds zero dialogues. -/
theorem no_sentinel_single_dialogue (lines : List String)
    (h : ∀ l ∈ lines, lineIsSentinel l = false ∧ parse_line l ≠ Except.error ()) :
    _process_lines ConvState.init lines =
      Except.ok ⟨(if lines.filterMap lineTurn = [] then []
                  else [⟨lines.filterMap lineTurn, none⟩]),
                 lines.filterMap lineTurn⟩ := by
  unfold _process_lines
  rw [processLoop_no_sentinel lines ConvState.init h]
  dsimp only
  by_cases hf : lines.filterMap lineTurn = []
  · simp [ConvState.init, hf]
  · simp [ConvState.init, hf, List.isEmpty_iff]

/-- Counterexample to C4 as stated: the input `["a\tb"]` contains zero
sentinel lines, yet a fresh converter produces zero dialogues, not exactly
one (the only line has fewer than 3 fields, so no turn is ever accumulated). -/
theorem no_sentinel_zero_dialogues :
    lineIsSentinel "a\tb" = false ∧
    _process_lines ConvState.init ["a\tb"] = Except.ok ⟨[], []⟩ := by
  exact ⟨by decide, by decide⟩

/-- Witness for the amended C4 at a concrete sentinel-free one-line input. -/
theorem no_sentinel_single_dialogue_witness :
    _process_lines ConvState.init ["a\tb\tc"] =
      Except.ok ⟨(if (["a\tb\tc"].filterMap lineTurn) = [] then []
                  else [⟨["a\tb\tc"].filterMap lineTurn, none⟩]),
                 ["a\tb\tc"].filterMap lineTurn⟩ :=
  no_sentinel_single_dialogue ["a\tb\tc"] (by decide)

/-- C6 (amended): in the structured-record renderer, the rescaled-average
field is the absent marker exactly when the dialogue's average is ≤ 0 (not
only when it is 0), and for a positive average it equals the average rescaled
to 1–100 and rounded to 2 decimals. -/
theorem rescaled_marker_condition (idx : Nat) (d : Dialogue) :
    ((to_json_dialogue idx d).average_score_100 = none ↔
      calculate_dialogue_average d ≤ 0) ∧
    (0 < calculate_dialogue_average d →
      (to_json_dialogue idx d).average_score_100 =
        some (round2 (scale_score (calculate_dialogue_average d) 1 5 1 100))) := by
  constructor
  · by_cases h : 0 < calculate_dialogue_average d
    · simp [to_json_dialogue, h]
    · simp [to_json_dialogue, h]
      exact not_lt.mp h
  · intro h
    simp [to_json_dialogue, h]

/-- Counterexample to C6 as stated: a parseable dialogue whose only score is
`-3` has average `-3 ≠ 0`, yet the renderer sets the rescaled field to the
absent marker. -/
theorem rescaled_marker_negative_average :
    _process_lines ConvState.init ["a\tb\tc\t-3"] =
      Except.ok ⟨[⟨[⟨"a", "b", "c", some [-3]⟩], none⟩], [⟨"a", "b", "c", some [-3]⟩]⟩ ∧
    calculate_dialogue_average ⟨[⟨"a", "b", "c", some [-3]⟩], none⟩ = -3 ∧
    (to_json_dialogue 1 ⟨[⟨"a", "b", "c", some [-3]⟩], none⟩).average_score_100 = none := by
  have havg : calculate_dialogue_average ⟨[⟨"a", "b", "c", some [-3]⟩], none⟩ = -3 := by
    simp [calculate_dialogue_average, extendScores]
  refine ⟨by decide, havg, ?_⟩
  simp [to_json_dialogue, havg]

/-- Witness for the amended C6 at a dialogue with positive average. -/
theorem rescaled_marker_condition_witness :
    (to_json_dialogue 1 ⟨[⟨"a", "b", "c", some [2, 4]⟩], none⟩).average_score_100 =
      some (round2 (scale_score
        (calculate_dialogue_average ⟨[⟨"a", "b", "c", some [2, 4]⟩], none⟩) 1 5 1 100)) :=
  (rescaled_marker_condition 1 _).2 (by
    simp [calculate_dialogue_average, extendScores])
